import Mathlib

/-!
Verification of the TaskManager component (src/TaskManager.js) of the
taskManager repository, against its natural-language specification.

The JavaScript class is embedded shallowly:

* a `Task` record mirrors the task objects built by `addTask`; timestamps
  (`createdAt`, `updatedAt`, `dueDate`) are modelled as abstract `Nat`
  instants (the code stores ISO-8601 strings / `Date` values whose only
  observed operations are comparison and subtraction);
* `status` and `priority` are `String`s, as in the dynamically typed
  source (updateTask can store arbitrary strings in them);
* the mutable `this.tasks` / `this.nextId` state is threaded explicitly
  through each operation as a `TaskManager` value;
* `new Date()` readings are passed in as an explicit `now : Nat` argument,
  one clock reading per operation;
* the JSON file is modelled by `FileState`: `missing` (ENOENT),
  `corrupt` (any other read/parse failure), or `valid d` with the parsed
  object `d`;
* thrown exceptions become `Except` error values; operations that throw
  after `findIndex`-style checks but before mutating return the
  unchanged state alongside the error.

For the aliasing behaviour of `getTasks` (which copies the array with
`[...this.tasks]` but not the task objects inside it) a small heap model
is used: task records live in a heap (`List Task`, addresses are
indices) and the store holds a list of addresses, exactly as JavaScript
arrays hold object references.
-/

namespace TM

/-- A task record, as built by `TaskManager.addTask` (src lines 58-68).
(Named `TM.Task` because `Task` is taken by the Lean core library.) -/
structure Task where
  id : Nat
  title : String
  description : String
  status : String
  priority : String
  createdAt : Nat
  updatedAt : Nat
  tags : List String
  dueDate : Option Nat
deriving Repr, DecidableEq

/-- The mutable state of a `TaskManager` instance: `this.tasks` and
`this.nextId` (src lines 18-20). -/
structure TaskManager where
  tasks : List Task
  nextId : Nat
deriving Repr, DecidableEq

/-- The state set up by the constructor before any load: `tasks = []`,
`nextId = 1` (src lines 18-20). -/
def TaskManager.new : TaskManager := { tasks := [], nextId := 1 }

/-- The argument object of `addTask`.  Absent properties are `none`; the
code replaces falsy `description` / `priority` / `tags` with defaults.
A missing or empty `title` is both modelled by `""` (both are falsy). -/
structure TaskData where
  title : String
  description : Option String := none
  priority : Option String := none
  tags : Option (List String) := none
  dueDate : Option Nat := none
deriving Repr, DecidableEq

/-- `addTask(taskData)` (src lines 52-75): rejects a falsy title, builds
the task with `id = this.nextId++`, `status = "pending"`, both
timestamps `now`, defaults for the optional fields, and pushes it at the
end of `this.tasks`.  The thrown validation error leaves the state
unchanged. -/
def TaskManager.addTask (m : TaskManager) (td : TaskData) (now : Nat) :
    Except String Task × TaskManager :=
  if td.title = "" then
    (.error "任务标题不能为空", m)
  else
    let task : Task :=
      { id := m.nextId
        title := td.title
        description := td.description.getD ""
        status := "pending"
        priority :=
          match td.priority with
          | some p => if p = "" then "medium" else p
          | none => "medium"
        createdAt := now
        updatedAt := now
        tags := td.tags.getD []
        dueDate := td.dueDate }
    (.ok task, { tasks := m.tasks ++ [task], nextId := m.nextId + 1 })

/-- `getTaskById(id)` (src lines 82-85): first task with the given id,
or `null`. -/
def TaskManager.getTaskById (m : TaskManager) (i : Nat) : Option Task :=
  m.tasks.find? (fun t => t.id = i)

/-- The argument object of `updateTask`.  A `none` field is absent from
the `updates` object and is therefore not touched by the spread
`{...task, ...updates}`; `dueDate` may be present and set to null
(`some none`). -/
structure Updates where
  id : Option Nat := none
  title : Option String := none
  description : Option String := none
  status : Option String := none
  priority : Option String := none
  createdAt : Option Nat := none
  updatedAt : Option Nat := none
  tags : Option (List String) := none
  dueDate : Option (Option Nat) := none
deriving Repr, DecidableEq

/-- The merge performed by `updateTask` (src lines 146-152):
`{...old, ...updates, id: old.id, createdAt: old.createdAt,
updatedAt: now}` — provided fields win, then `id` and `createdAt` are
forced back to their old values and `updatedAt` is stamped. -/
def mergeTask (t : Task) (u : Updates) (now : Nat) : Task :=
  { id := t.id
    title := u.title.getD t.title
    description := u.description.getD t.description
    status := u.status.getD t.status
    priority := u.priority.getD t.priority
    createdAt := t.createdAt
    updatedAt := now
    tags := u.tags.getD t.tags
    dueDate := u.dueDate.getD t.dueDate }

/-- The `findIndex` + in-place replacement of `updateTask`
(src lines 139-152): replace the first task whose id matches, returning
the new task and the new list, or `none` when no id matches. -/
def updateList (ts : List Task) (i : Nat) (u : Updates) (now : Nat) :
    Option (Task × List Task) :=
  match ts with
  | [] => none
  | t :: rest =>
    if t.id = i then
      let t' := mergeTask t u now
      some (t', t' :: rest)
    else
      match updateList rest i u now with
      | some (t', rest') => some (t', t :: rest')
      | none => none

/-- `updateTask(id, updates)` (src lines 138-157): throws when the id is
absent (before any state change), otherwise merges and stores.  The
returned pair is (result, state after the call). -/
def TaskManager.updateTask (m : TaskManager) (i : Nat) (u : Updates) (now : Nat) :
    Except String Task × TaskManager :=
  match updateList m.tasks i u now with
  | none => (.error s!"任务 ID {i} 不存在", m)
  | some (t', ts') => (.ok t', { m with tasks := ts' })

/-- The in-place mutation of `markAsCompleted` (src lines 234-235):
`task.status = "completed"; task.updatedAt = new Date().toISOString()`. -/
def completeTask (t : Task) (now : Nat) : Task :=
  { t with status := "completed", updatedAt := now }

/-- One step of `markAsCompleted`'s loop body (src lines 232-237):
`getTaskById(id)` finds the first task with the id; if it exists and is
not already completed its `status` and `updatedAt` are mutated in place.
Returns the changed task and the updated list, or `none` when nothing
changed for this id. -/
def markOne (ts : List Task) (i : Nat) (now : Nat) : Option (Task × List Task) :=
  match ts with
  | [] => none
  | t :: rest =>
    if t.id = i then
      if t.status = "completed" then none
      else
        let t' := completeTask t now
        some (t', t' :: rest)
    else
      match markOne rest i now with
      | some (t', rest') => some (t', t :: rest')
      | none => none

/-- The `for (const id of ids)` loop of `markAsCompleted`
(src lines 229-238), returning the accumulated `updates` list and the
final task list. -/
def markLoop (ts : List Task) (ids : List Nat) (now : Nat) :
    List Task × List Task :=
  match ids with
  | [] => ([], ts)
  | i :: rest =>
    match markOne ts i now with
    | some (t', ts') =>
      let r := markLoop ts' rest now
      (t' :: r.1, r.2)
    | none => markLoop ts rest now

/-- `markAsCompleted(ids)` (src lines 228-246): marks each not-yet
completed existing id, returns the list of changed tasks. -/
def TaskManager.markAsCompleted (m : TaskManager) (ids : List Nat) (now : Nat) :
    List Task × TaskManager :=
  let r := markLoop m.tasks ids now
  (r.1, { m with tasks := r.2 })

/-- The `"dueDate"` case of the sort comparator in `getTasks`
(src lines 119-122): `if (!a.dueDate) return 1; if (!b.dueDate) return -1;
return new Date(a.dueDate) - new Date(b.dueDate);`.  A set due date is a
truthy `Date`/ISO string, so the falsiness tests are `= none` tests, and
the `Date` subtraction is subtraction of the timestamps. -/
def dueDateCmp (a b : Task) : Int :=
  match a.dueDate with
  | none => 1
  | some da =>
    match b.dueDate with
    | none => -1
    | some db => (da : Int) - (db : Int)

/-- The weight table `{high: 3, medium: 2, low: 1}` of the `"priority"`
sort case (src line 117).  For any other string the JavaScript lookup is
`undefined` and the subtraction yields `NaN`, which the sort treats like
0; that is modelled by weight 0. -/
def priorityOrder (p : String) : Int :=
  if p = "high" then 3 else if p = "medium" then 2 else if p = "low" then 1 else 0

/-- The full sort comparator of `getTasks` (src lines 112-126): switch on
`filters.sortBy` — `"createdAt"` descending, `"priority"` descending by
weight, `"dueDate"` via `dueDateCmp`, default 0 (no reordering). -/
def sortCmp (sortBy : String) (a b : Task) : Int :=
  if sortBy = "createdAt" then (b.createdAt : Int) - (a.createdAt : Int)
  else if sortBy = "priority" then priorityOrder b.priority - priorityOrder a.priority
  else if sortBy = "dueDate" then dueDateCmp a b
  else 0

/-- The `filters` argument of `getTasks`.  `none` models an absent
property. -/
structure Filters where
  status : Option String := none
  priority : Option String := none
  tag : Option String := none
  sortBy : Option String := none
deriving Repr, DecidableEq

/-- JavaScript truthiness of an optional string property: an absent
property and the empty string are both falsy, so `if (filters.x)` only
fires on `some s` with `s` nonempty. -/
def strPresent : Option String → Option String
  | some s => if s = "" then none else some s
  | none => none

/-!
Heap model for the aliasing behaviour of `getTasks`.

In JavaScript `this.tasks` is an array of object references and
`[...this.tasks]` copies the array, not the objects.  The heap is a
`List Task` (an address is an index), the store's array is a
`List Nat` of addresses, and `getTasks` is a function from addresses to
addresses that reads task fields through the heap.
-/

/-- Read the task record at a heap address (a JavaScript dereference). -/
def readH (h : List Task) (a : Nat) : Option Task := h[a]?

/-- Overwrite the task record at a heap address: the effect of mutating
a task object in place through any reference to it. -/
def writeH (h : List Task) (a : Nat) (t : Task) : List Task := h.set a t

/-- A task-field predicate lifted to an address; a dangling address
fails the filter (cannot arise from a well-formed store). -/
def fieldAt (h : List Task) (p : Task → Bool) (a : Nat) : Bool :=
  match readH h a with
  | some t => p t
  | none => false

/-- `getTasks(filters)` (src lines 92-130) over the heap model: copy the
address array with `[...this.tasks]`, filter conjunctively by `status`,
`priority` and `tag`, then, when `sortBy` is present, sort in place with
`sortCmp` (JavaScript's stable sort, modelled by `mergeSort` on
`comparator ≤ 0`).  The addresses themselves — the object references —
are returned unchanged. -/
def getTasks (h : List Task) (refs : List Nat) (f : Filters) : List Nat :=
  let result := refs
  let result :=
    match strPresent f.status with
    | some s => result.filter (fieldAt h (fun t => t.status = s))
    | none => result
  let result :=
    match strPresent f.priority with
    | some p => result.filter (fieldAt h (fun t => t.priority = p))
    | none => result
  let result :=
    match strPresent f.tag with
    | some tg => result.filter (fieldAt h (fun t => t.tags.contains tg))
    | none => result
  match strPresent f.sortBy with
  | some sb =>
    result.mergeSort (fun a b =>
      match readH h a, readH h b with
      | some ta, some tb => sortCmp sb ta tb ≤ 0
      | _, _ => true)
  | none => result

/-- The value of the `completionRate` field of the statistics object: it
is initialised to the number 0 and replaced by a formatted string only
when `total > 0`, so its JavaScript type is number-or-string. -/
inductive CompletionRate where
  | num (n : Nat)
  | str (s : String)
deriving Repr, DecidableEq

/-- The statistics object of `getStatistics` (src lines 182-196), with
the three fixed `byStatus` keys and three fixed `byPriority` keys as
fields.  (A task whose `status`/`priority` is outside the three expected
values makes the JavaScript code create an extra `NaN`-valued key; the
three counted keys below are unaffected.) -/
structure Stats where
  total : Nat
  pending : Nat
  inProgress : Nat
  completed : Nat
  high : Nat
  medium : Nat
  low : Nat
  completionRate : CompletionRate
  overdue : Nat
deriving Repr, DecidableEq

/-- `stats.byStatus[task.status]++` restricted to the three declared
keys. -/
def bumpStatus (s : Stats) (st : String) : Stats :=
  if st = "pending" then { s with pending := s.pending + 1 }
  else if st = "in-progress" then { s with inProgress := s.inProgress + 1 }
  else if st = "completed" then { s with completed := s.completed + 1 }
  else s

/-- `stats.byPriority[task.priority]++` restricted to the three declared
keys. -/
def bumpPriority (s : Stats) (p : String) : Stats :=
  if p = "high" then { s with high := s.high + 1 }
  else if p = "medium" then { s with medium := s.medium + 1 }
  else if p = "low" then { s with low := s.low + 1 }
  else s

/-- The overdue test of `getStatistics` (src lines 206-210):
`task.dueDate && new Date(task.dueDate) < now && task.status !== "completed"`
(a set due date is truthy). -/
def isOverdue (t : Task) (now : Nat) : Bool :=
  match t.dueDate with
  | some d => decide (d < now) && !(t.status = "completed")
  | none => false

/-- `((completed / total) * 100).toFixed(2) + "%"` (src line 218),
with the floating-point arithmetic modelled by exact arithmetic: the
rate in hundredths of a percent, rounded half-up, rendered with two
decimal digits and a percent sign. -/
def formatRate (completed total : Nat) : String :=
  let scaled := (2 * (completed * 10000) + total) / (2 * total)
  let frac := scaled % 100
  let fracStr := if frac < 10 then "0" ++ toString frac else toString frac
  toString (scaled / 100) ++ "." ++ fracStr ++ "%"

/-- The body of the `forEach` accumulation of `getStatistics`
(src lines 201-213). -/
def statStep (now : Nat) (s : Stats) (t : Task) : Stats :=
  let s := bumpStatus s t.status
  let s := bumpPriority s t.priority
  if isOverdue t now then { s with overdue := s.overdue + 1 } else s

/-- `getStatistics()` (src lines 181-222): initialise all counters to 0
and `total` to the task count, accumulate over `this.tasks` with
`forEach`, then overwrite `completionRate` when `total > 0`. -/
def TaskManager.getStatistics (m : TaskManager) (now : Nat) : Stats :=
  let init : Stats :=
    { total := m.tasks.length
      pending := 0, inProgress := 0, completed := 0
      high := 0, medium := 0, low := 0
      completionRate := .num 0
      overdue := 0 }
  let s := m.tasks.foldl (statStep now) init
  if s.total > 0 then
    { s with completionRate := .str (formatRate s.completed s.total) }
  else s

/-!
Persistence.  `saveToFile` serialises `{tasks, nextId, lastSaved}` to
the JSON file; `loadFromFile` reads and parses it.  The file is
modelled by `FileState`; `corrupt` stands for any read or parse failure
other than ENOENT (e.g. malformed JSON).
-/

/-- The parsed shape of the JSON file.  A `none` field is absent from
the parsed object. -/
structure StoredData where
  tasks : Option (List Task) := none
  nextId : Option Nat := none
  lastSaved : Option Nat := none
deriving Repr, DecidableEq

/-- The state of the storage file. -/
inductive FileState where
  | missing
  | corrupt
  | valid (d : StoredData)
deriving Repr, DecidableEq

/-- `saveToFile()` (src lines 267-286): writes
`{tasks: this.tasks, nextId: this.nextId, lastSaved: now}` as the new
file content. -/
def TaskManager.saveToFile (m : TaskManager) (now : Nat) : FileState :=
  .valid { tasks := some m.tasks, nextId := some m.nextId, lastSaved := some now }

/-- `loadFromFile()` (src lines 291-308): ENOENT is tolerated (logged,
no state change); any other failure is rethrown; on success
`this.tasks = data.tasks || []` and `this.nextId = data.nextId || 1`
(`0` is falsy, an empty array is truthy). -/
def TaskManager.loadFromFile (m : TaskManager) (fs : FileState) :
    Except Unit TaskManager :=
  match fs with
  | .missing => .ok m
  | .corrupt => .error ()
  | .valid d =>
    .ok { tasks := d.tasks.getD []
          nextId := match d.nextId with
                    | some n => if n = 0 then 1 else n
                    | none => 1 }

/-- `initialize()` (src lines 32-45): ensures the data directory exists
(not modelled), calls `loadFromFile`, and wraps everything in a
`try/catch` whose catch block only logs — every error, including a
rethrown load failure, is swallowed and `initialize` completes
normally with the state as it was. -/
def TaskManager.initialize (m : TaskManager) (fs : FileState) :
    Except Unit TaskManager :=
  match m.loadFromFile fs with
  | .ok m' => .ok m'
  | .error _ => .ok m

/-!
Concrete task records and stores, used to exercise the operations on
explicit inputs.
-/

/-- A concrete pending task without a due date. -/
def sampleTask : Task :=
  { id := 1, title := "alpha", description := "", status := "pending"
    priority := "medium", createdAt := 0, updatedAt := 0, tags := [], dueDate := none }

/-- A second concrete task without a due date. -/
def sampleTask2 : Task := { sampleTask with id := 2, title := "beta" }

/-- A concrete task due at instant 5. -/
def taskDue5 : Task := { sampleTask with id := 3, title := "gamma", dueDate := some 5 }

/-- A concrete task due at instant 9. -/
def taskDue9 : Task := { sampleTask with id := 4, title := "delta", dueDate := some 9 }

/-- A concrete completed task. -/
def doneTask : Task := { sampleTask with id := 5, title := "epsilon", status := "completed" }

/-!
Theorems.
-/

/-- When no task id matches, `updateTask`'s find-and-replace finds
nothing. -/
theorem updateList_eq_none {ts : List Task} {i : Nat} (u : Updates) (now : Nat)
    (h : ∀ t ∈ ts, t.id ≠ i) : updateList ts i u now = none := by
  induction ts with
  | nil => rfl
  | cons t rest ih =>
    have ht : ¬(t.id = i) := h t (List.mem_cons_self t rest)
    have hr := ih fun x hx => h x (List.mem_cons_of_mem t hx)
    simp [updateList, ht, hr]

/-- When the first task with the given id is `t`, `updateTask`'s
find-and-replace substitutes the merged task for `t` and leaves the
prefix and the suffix of the list untouched. -/
theorem updateList_eq_some {ts : List Task} {i : Nat} {t : Task} (u : Updates) (now : Nat)
    (hfind : ts.find? (fun x => x.id = i) = some t) :
    ∃ pre post, ts = pre ++ t :: post ∧ (∀ x ∈ pre, x.id ≠ i) ∧ t.id = i ∧
      updateList ts i u now = some (mergeTask t u now, pre ++ mergeTask t u now :: post) := by
  induction ts with
  | nil => simp at hfind
  | cons x rest ih =>
    by_cases hx : x.id = i
    · rw [List.find?_cons_of_pos rest (by simp [hx])] at hfind
      obtain rfl : x = t := by simpa using hfind
      exact ⟨[], rest, rfl, by simp, hx, by simp [updateList, hx]⟩
    · rw [List.find?_cons_of_neg rest (by simp [hx])] at hfind
      obtain ⟨pre, post, hts, hpre, hid, hupd⟩ := ih hfind
      refine ⟨x :: pre, post, by rw [List.cons_append, hts], ?_, hid, ?_⟩
      · intro y hy
        rcases List.mem_cons.mp hy with rfl | hy'
        · exact hx
        · exact hpre y hy'
      · simp [updateList, hx, hupd]

/-- C1 (counterexample): on a corrupt storage file `loadFromFile` does
fail, but `initialize` completes normally with the prior (empty) store —
contrary to the claim that a non-ENOENT load failure propagates out of
`initialize`: its blanket `try/catch` (src lines 42-44) swallows every
error and only logs. -/
theorem initialize_corrupt_completes_normally :
    TaskManager.loadFromFile TaskManager.new FileState.corrupt = .error () ∧
    TaskManager.initialize TaskManager.new FileState.corrupt = .ok TaskManager.new :=
  ⟨rfl, rfl⟩

/-- C1 (amended): for every store, a missing storage file is tolerated
(the store proceeds unchanged, with no error) by both `loadFromFile` and
`initialize`; any other load failure makes `loadFromFile` fail, but
`initialize` catches it and completes normally with its prior state, so
no load failure ever propagates to `initialize`'s caller. -/
theorem initialize_swallows_load_failures (m : TaskManager) :
    m.loadFromFile .missing = .ok m ∧
    m.initialize .missing = .ok m ∧
    m.loadFromFile .corrupt = .error () ∧
    m.initialize .corrupt = .ok m :=
  ⟨rfl, rfl, rfl, rfl⟩

/-- C3 (counterexample): for two concrete tasks that both lack a due
date, the `"dueDate"` comparator returns 1 on both sides — each task is
reported as sorting strictly after the other — so the comparison is not
a consistent (transitive) ordering. -/
theorem dueDateCmp_inconsistent :
    dueDateCmp sampleTask sampleTask2 = 1 ∧ dueDateCmp sampleTask2 sampleTask = 1 :=
  ⟨rfl, rfl⟩

/-- C3 (amended): the `"dueDate"` comparator orders two dated tasks
ascending by due date, and a dateless task compares after a dated one
regardless of which side it appears on; but whenever the left task lacks
a due date the comparator returns 1 even when the right one also lacks
one, so two dateless tasks each compare after the other and the induced
ordering is not consistent (their relative order is
implementation-defined). -/
theorem dueDateCmp_spec (a b : Task) (da db : Nat) :
    (a.dueDate = some da → b.dueDate = some db → (dueDateCmp a b < 0 ↔ da < db)) ∧
    (a.dueDate = some da → b.dueDate = some db → (dueDateCmp a b = 0 ↔ da = db)) ∧
    (a.dueDate = some da → b.dueDate = none → dueDateCmp a b = -1) ∧
    (a.dueDate = none → dueDateCmp a b = 1) := by
  refine ⟨fun h1 h2 => ?_, fun h1 h2 => ?_, fun h1 h2 => ?_, fun h1 => ?_⟩
  · simp only [dueDateCmp, h1, h2]; omega
  · simp only [dueDateCmp, h1, h2]; omega
  · simp [dueDateCmp, h1, h2]
  · simp [dueDateCmp, h1]

/-- C3 (amended, witness): the comparator at explicit tasks due at 5 and
9 and at an explicit dateless task. -/
theorem dueDateCmp_spec_witness :
    (dueDateCmp taskDue5 taskDue9 < 0 ↔ 5 < 9) ∧
    dueDateCmp taskDue5 sampleTask = -1 ∧
    dueDateCmp sampleTask taskDue5 = 1 :=
  ⟨(dueDateCmp_spec taskDue5 taskDue9 5 9).1 rfl rfl,
   (dueDateCmp_spec taskDue5 sampleTask 5 9).2.2.1 rfl rfl,
   (dueDateCmp_spec sampleTask taskDue5 5 9).2.2.2 rfl⟩

/-- C4 (confirmed): saving any store whose `nextId` is nonzero (every
reachable store's is: it starts at 1 and only ever increments or resets
to 1) and loading the file into a fresh store reproduces the identical
ordered task sequence — every task equal field by field, `dueDate`
included — and the same `nextId`. -/
theorem save_load_roundTrip (m : TaskManager) (now : Nat) (h : m.nextId ≠ 0) :
    TaskManager.loadFromFile TaskManager.new (m.saveToFile now) = .ok m := by
  simp [TaskManager.loadFromFile, TaskManager.saveToFile, h]

/-- C4 (confirmed, witness): the round trip at an explicit two-task
store. -/
theorem save_load_roundTrip_witness :
    TaskManager.loadFromFile TaskManager.new
      (TaskManager.saveToFile ⟨[sampleTask, doneTask], 6⟩ 7) =
      .ok ⟨[sampleTask, doneTask], 6⟩ :=
  save_load_roundTrip ⟨[sampleTask, doneTask], 6⟩ 7 (by decide)

/-- C5 (confirmed): for a valid input (nonempty title) on a store whose
existing ids all lie below `nextId` (the store invariant that assignment
maintains), `addTask` returns a task whose id is the prior `nextId` —
strictly greater than every existing task's id — increments `nextId` by
one, sets `status = "pending"` and `createdAt = updatedAt = now`, and
appends the new task at the end of the sequence, leaving all existing
tasks in place. -/
theorem addTask_spec (m : TaskManager) (td : TaskData) (now : Nat)
    (htitle : td.title ≠ "") (hinv : ∀ t ∈ m.tasks, t.id < m.nextId) :
    ∃ t, m.addTask td now = (.ok t, { tasks := m.tasks ++ [t], nextId := m.nextId + 1 }) ∧
      t.id = m.nextId ∧ t.status = "pending" ∧
      t.createdAt = now ∧ t.updatedAt = now ∧ t.createdAt = t.updatedAt ∧
      ∀ t' ∈ m.tasks, t'.id < t.id := by
  refine ⟨{ id := m.nextId, title := td.title, description := td.description.getD ""
            status := "pending"
            priority := match td.priority with
                        | some p => if p = "" then "medium" else p
                        | none => "medium"
            createdAt := now, updatedAt := now, tags := td.tags.getD []
            dueDate := td.dueDate }, ?_, rfl, rfl, rfl, rfl, rfl, hinv⟩
  simp only [TaskManager.addTask, if_neg htitle]

/-- C5 (confirmed, witness): adding a task to an explicit one-task
store. -/
theorem addTask_spec_witness :
    ∃ t, TaskManager.addTask ⟨[sampleTask], 2⟩ { title := "beta" } 5 =
        (.ok t, { tasks := [sampleTask] ++ [t], nextId := 2 + 1 }) ∧
      t.id = 2 ∧ t.status = "pending" ∧
      t.createdAt = 5 ∧ t.updatedAt = 5 ∧ t.createdAt = t.updatedAt ∧
      ∀ t' ∈ [sampleTask], t'.id < t.id :=
  addTask_spec ⟨[sampleTask], 2⟩ { title := "beta" } 5 (by decide) (by decide)

/-- C7 (confirmed): `updateTask` on an id no task carries throws the
not-found error and returns the store exactly as it was — the throw
happens before any state change. -/
theorem updateTask_notFound (m : TaskManager) (i : Nat) (u : Updates) (now : Nat)
    (h : ∀ t ∈ m.tasks, t.id ≠ i) :
    m.updateTask i u now = (.error s!"任务 ID {i} 不存在", m) := by
  unfold TaskManager.updateTask
  rw [updateList_eq_none u now h]

/-- C7 (confirmed, witness): updating id 99 on an explicit one-task
store fails and leaves the store untouched. -/
theorem updateTask_notFound_witness :
    TaskManager.updateTask ⟨[sampleTask], 2⟩ 99 {} 5 =
      (.error "任务 ID 99 不存在", ⟨[sampleTask], 2⟩) :=
  updateTask_notFound ⟨[sampleTask], 2⟩ 99 {} 5 (by decide)

/-- C6 (confirmed): when the store contains the id (first match `t`),
`updateTask` succeeds, replaces exactly that occurrence by the merge of
the provided fields over `t` — each absent field keeps its prior value —
never overwrites `id` or `createdAt` even when `updates` carries values
for them, and stamps `updatedAt := now`, strictly greater than the prior
value under an advancing clock; every other task and `nextId` are
untouched. -/
theorem updateTask_spec (m : TaskManager) (i : Nat) (u : Updates) (now : Nat) (t : Task)
    (hfind : m.tasks.find? (fun x => x.id = i) = some t)
    (hclock : t.updatedAt < now) :
    (m.updateTask i u now).1 = .ok (mergeTask t u now) ∧
    (m.updateTask i u now).2.nextId = m.nextId ∧
    (∃ pre post, m.tasks = pre ++ t :: post ∧
      (m.updateTask i u now).2.tasks = pre ++ mergeTask t u now :: post) ∧
    (mergeTask t u now).id = t.id ∧
    (mergeTask t u now).createdAt = t.createdAt ∧
    (mergeTask t u now).updatedAt = now ∧
    t.updatedAt < (mergeTask t u now).updatedAt ∧
    (mergeTask t u now).title = u.title.getD t.title ∧
    (mergeTask t u now).description = u.description.getD t.description ∧
    (mergeTask t u now).status = u.status.getD t.status ∧
    (mergeTask t u now).priority = u.priority.getD t.priority ∧
    (mergeTask t u now).tags = u.tags.getD t.tags ∧
    (mergeTask t u now).dueDate = u.dueDate.getD t.dueDate := by
  obtain ⟨pre, post, hts, hpre, hid, hupd⟩ := updateList_eq_some u now hfind
  refine ⟨?_, ?_, ⟨pre, post, hts, ?_⟩, rfl, rfl, rfl, hclock, rfl, rfl, rfl, rfl, rfl, rfl⟩ <;>
    simp [TaskManager.updateTask, hupd]

/-- C6 (confirmed, witness): marking the task of an explicit store
completed through `updateTask` with an `updates` object that also tries
to overwrite `id` and `createdAt`. -/
theorem updateTask_spec_witness :
    (TaskManager.updateTask ⟨[sampleTask], 2⟩ 1
        { status := some "completed", id := some 99, createdAt := some 77 } 5).1 =
      .ok (mergeTask sampleTask
        { status := some "completed", id := some 99, createdAt := some 77 } 5) ∧
    (TaskManager.updateTask ⟨[sampleTask], 2⟩ 1
        { status := some "completed", id := some 99, createdAt := some 77 } 5).2.nextId = 2 ∧
    (∃ pre post, [sampleTask] = pre ++ sampleTask :: post ∧
      (TaskManager.updateTask ⟨[sampleTask], 2⟩ 1
          { status := some "completed", id := some 99, createdAt := some 77 } 5).2.tasks =
        pre ++ mergeTask sampleTask
          { status := some "completed", id := some 99, createdAt := some 77 } 5 :: post) ∧
    (mergeTask sampleTask
        { status := some "completed", id := some 99, createdAt := some 77 } 5).id =
      sampleTask.id ∧
    (mergeTask sampleTask
        { status := some "completed", id := some 99, createdAt := some 77 } 5).createdAt =
      sampleTask.createdAt ∧
    (mergeTask sampleTask
        { status := some "completed", id := some 99, createdAt := some 77 } 5).updatedAt = 5 ∧
    sampleTask.updatedAt < (mergeTask sampleTask
        { status := some "completed", id := some 99, createdAt := some 77 } 5).updatedAt ∧
    (mergeTask sampleTask
        { status := some "completed", id := some 99, createdAt := some 77 } 5).title =
      (Option.getD none sampleTask.title) ∧
    (mergeTask sampleTask
        { status := some "completed", id := some 99, createdAt := some 77 } 5).description =
      (Option.getD none sampleTask.description) ∧
    (mergeTask sampleTask
        { status := some "completed", id := some 99, createdAt := some 77 } 5).status =
      (Option.getD (some "completed") sampleTask.status) ∧
    (mergeTask sampleTask
        { status := some "completed", id := some 99, createdAt := some 77 } 5).priority =
      (Option.getD none sampleTask.priority) ∧
    (mergeTask sampleTask
        { status := some "completed", id := some 99, createdAt := some 77 } 5).tags =
      (Option.getD none sampleTask.tags) ∧
    (mergeTask sampleTask
        { status := some "completed", id := some 99, createdAt := some 77 } 5).dueDate =
      (Option.getD none sampleTask.dueDate) :=
  updateTask_spec ⟨[sampleTask], 2⟩ 1
    { status := some "completed", id := some 99, createdAt := some 77 } 5 sampleTask
    (by decide) (by decide)

/-- C10 (confirmed): `updateTask` performs no validation of the update
payload: an empty title and an arbitrary status string are merged into
the stored task verbatim and the call succeeds — although `addTask`
rejects an empty title. -/
theorem updateTask_no_validation (m : TaskManager) (i : Nat) (now : Nat) (s : String)
    (t : Task) (hfind : m.tasks.find? (fun x => x.id = i) = some t) :
    (m.updateTask i { title := some "", status := some s } now).1 =
      .ok (mergeTask t { title := some "", status := some s } now) ∧
    (mergeTask t { title := some "", status := some s } now).title = "" ∧
    (mergeTask t { title := some "", status := some s } now).status = s ∧
    (mergeTask t { title := some "", status := some s } now) ∈
      (m.updateTask i { title := some "", status := some s } now).2.tasks ∧
    (∀ td : TaskData, td.title = "" → (m.addTask td now).1 = .error "任务标题不能为空") := by
  obtain ⟨pre, post, hts, hpre, hid, hupd⟩ :=
    updateList_eq_some { title := some "", status := some s } now hfind
  refine ⟨by simp [TaskManager.updateTask, hupd], rfl, rfl, ?_, ?_⟩
  · simp [TaskManager.updateTask, hupd]
  · intro td htd
    simp [TaskManager.addTask, htd]

/-- C10 (confirmed, witness): storing an empty title and the undocumented
status `"bogus"` in an explicit one-task store. -/
theorem updateTask_no_validation_witness :
    (TaskManager.updateTask ⟨[sampleTask], 2⟩ 1
        { title := some "", status := some "bogus" } 5).1 =
      .ok (mergeTask sampleTask { title := some "", status := some "bogus" } 5) ∧
    (mergeTask sampleTask { title := some "", status := some "bogus" } 5).title = "" ∧
    (mergeTask sampleTask { title := some "", status := some "bogus" } 5).status = "bogus" ∧
    (mergeTask sampleTask { title := some "", status := some "bogus" } 5) ∈
      (TaskManager.updateTask ⟨[sampleTask], 2⟩ 1
          { title := some "", status := some "bogus" } 5).2.tasks ∧
    (∀ td : TaskData, td.title = "" →
      (TaskManager.addTask ⟨[sampleTask], 2⟩ td 5).1 = .error "任务标题不能为空") :=
  updateTask_no_validation ⟨[sampleTask], 2⟩ 1 5 "bogus" sampleTask (by decide)

/-- `bumpStatus` never touches the fields other than the three status
counters. -/
theorem bumpStatus_keeps (s : Stats) (st : String) :
    (bumpStatus s st).total = s.total ∧
    (bumpStatus s st).high = s.high ∧
    (bumpStatus s st).medium = s.medium ∧
    (bumpStatus s st).low = s.low ∧
    (bumpStatus s st).completionRate = s.completionRate ∧
    (bumpStatus s st).overdue = s.overdue := by
  unfold bumpStatus
  split_ifs <;> exact ⟨rfl, rfl, rfl, rfl, rfl, rfl⟩

/-- `bumpPriority` never touches the fields other than the three
priority counters. -/
theorem bumpPriority_keeps (s : Stats) (p : String) :
    (bumpPriority s p).total = s.total ∧
    (bumpPriority s p).pending = s.pending ∧
    (bumpPriority s p).inProgress = s.inProgress ∧
    (bumpPriority s p).completed = s.completed ∧
    (bumpPriority s p).completionRate = s.completionRate ∧
    (bumpPriority s p).overdue = s.overdue := by
  unfold bumpPriority
  split_ifs <;> exact ⟨rfl, rfl, rfl, rfl, rfl, rfl⟩

/-- `bumpStatus` bumps `pending` exactly on `"pending"`. -/
theorem bumpStatus_pending (s : Stats) (st : String) :
    (bumpStatus s st).pending = s.pending + (if st = "pending" then 1 else 0) := by
  by_cases h1 : st = "pending" <;> by_cases h2 : st = "in-progress" <;>
    by_cases h3 : st = "completed" <;>
    first
      | exact absurd (h1.symm.trans h2) (by decide)
      | exact absurd (h1.symm.trans h3) (by decide)
      | exact absurd (h2.symm.trans h3) (by decide)
      | simp [bumpStatus, h1, h2, h3]

/-- `bumpStatus` bumps `inProgress` exactly on `"in-progress"`. -/
theorem bumpStatus_inProgress (s : Stats) (st : String) :
    (bumpStatus s st).inProgress = s.inProgress + (if st = "in-progress" then 1 else 0) := by
  by_cases h1 : st = "pending" <;> by_cases h2 : st = "in-progress" <;>
    by_cases h3 : st = "completed" <;>
    first
      | exact absurd (h1.symm.trans h2) (by decide)
      | exact absurd (h1.symm.trans h3) (by decide)
      | exact absurd (h2.symm.trans h3) (by decide)
      | simp [bumpStatus, h1, h2, h3]

/-- `bumpStatus` bumps `completed` exactly on `"completed"`. -/
theorem bumpStatus_completed (s : Stats) (st : String) :
    (bumpStatus s st).completed = s.completed + (if st = "completed" then 1 else 0) := by
  by_cases h1 : st = "pending" <;> by_cases h2 : st = "in-progress" <;>
    by_cases h3 : st = "completed" <;>
    first
      | exact absurd (h1.symm.trans h2) (by decide)
      | exact absurd (h1.symm.trans h3) (by decide)
      | exact absurd (h2.symm.trans h3) (by decide)
      | simp [bumpStatus, h1, h2, h3]

/-- `bumpPriority` bumps `high` exactly on `"high"`. -/
theorem bumpPriority_high (s : Stats) (p : String) :
    (bumpPriority s p).high = s.high + (if p = "high" then 1 else 0) := by
  by_cases h1 : p = "high" <;> by_cases h2 : p = "medium" <;> by_cases h3 : p = "low" <;>
    first
      | exact absurd (h1.symm.trans h2) (by decide)
      | exact absurd (h1.symm.trans h3) (by decide)
      | exact absurd (h2.symm.trans h3) (by decide)
      | simp [bumpPriority, h1, h2, h3]

/-- `bumpPriority` bumps `medium` exactly on `"medium"`. -/
theorem bumpPriority_medium (s : Stats) (p : String) :
    (bumpPriority s p).medium = s.medium + (if p = "medium" then 1 else 0) := by
  by_cases h1 : p = "high" <;> by_cases h2 : p = "medium" <;> by_cases h3 : p = "low" <;>
    first
      | exact absurd (h1.symm.trans h2) (by decide)
      | exact absurd (h1.symm.trans h3) (by decide)
      | exact absurd (h2.symm.trans h3) (by decide)
      | simp [bumpPriority, h1, h2, h3]

/-- `bumpPriority` bumps `low` exactly on `"low"`. -/
theorem bumpPriority_low (s : Stats) (p : String) :
    (bumpPriority s p).low = s.low + (if p = "low" then 1 else 0) := by
  by_cases h1 : p = "high" <;> by_cases h2 : p = "medium" <;> by_cases h3 : p = "low" <;>
    first
      | exact absurd (h1.symm.trans h2) (by decide)
      | exact absurd (h1.symm.trans h3) (by decide)
      | exact absurd (h2.symm.trans h3) (by decide)
      | simp [bumpPriority, h1, h2, h3]

/-- The overdue-check branch of the accumulation step only touches
`overdue`. -/
theorem overdueIte_keeps (c : Prop) [Decidable c] (s : Stats) :
    (if c then { s with overdue := s.overdue + 1 } else s).total = s.total ∧
    (if c then { s with overdue := s.overdue + 1 } else s).pending = s.pending ∧
    (if c then { s with overdue := s.overdue + 1 } else s).inProgress = s.inProgress ∧
    (if c then { s with overdue := s.overdue + 1 } else s).completed = s.completed ∧
    (if c then { s with overdue := s.overdue + 1 } else s).high = s.high ∧
    (if c then { s with overdue := s.overdue + 1 } else s).medium = s.medium ∧
    (if c then { s with overdue := s.overdue + 1 } else s).low = s.low ∧
    (if c then { s with overdue := s.overdue + 1 } else s).completionRate =
      s.completionRate := by
  split <;> exact ⟨rfl, rfl, rfl, rfl, rfl, rfl, rfl, rfl⟩

/-- One accumulation step leaves `total` unchanged. -/
theorem statStep_total (now : Nat) (s : Stats) (t : Task) :
    (statStep now s t).total = s.total := by
  simp only [statStep]
  rw [(overdueIte_keeps _ _).1, (bumpPriority_keeps _ _).1, (bumpStatus_keeps _ _).1]

/-- One accumulation step leaves `completionRate` unchanged. -/
theorem statStep_completionRate (now : Nat) (s : Stats) (t : Task) :
    (statStep now s t).completionRate = s.completionRate := by
  simp only [statStep]
  rw [(overdueIte_keeps _ _).2.2.2.2.2.2.2, (bumpPriority_keeps _ _).2.2.2.2.1,
    (bumpStatus_keeps _ _).2.2.2.2.1]

/-- One accumulation step bumps `pending` exactly on a `"pending"`
task. -/
theorem statStep_pending (now : Nat) (s : Stats) (t : Task) :
    (statStep now s t).pending = s.pending + (if t.status = "pending" then 1 else 0) := by
  simp only [statStep]
  rw [(overdueIte_keeps _ _).2.1, (bumpPriority_keeps _ _).2.1, bumpStatus_pending]

/-- One accumulation step bumps `inProgress` exactly on an
`"in-progress"` task. -/
theorem statStep_inProgress (now : Nat) (s : Stats) (t : Task) :
    (statStep now s t).inProgress =
      s.inProgress + (if t.status = "in-progress" then 1 else 0) := by
  simp only [statStep]
  rw [(overdueIte_keeps _ _).2.2.1, (bumpPriority_keeps _ _).2.2.1, bumpStatus_inProgress]

/-- One accumulation step bumps `completed` exactly on a `"completed"`
task. -/
theorem statStep_completed (now : Nat) (s : Stats) (t : Task) :
    (statStep now s t).completed = s.completed + (if t.status = "completed" then 1 else 0) := by
  simp only [statStep]
  rw [(overdueIte_keeps _ _).2.2.2.1, (bumpPriority_keeps _ _).2.2.2.1, bumpStatus_completed]

/-- One accumulation step bumps `high` exactly on a `"high"`-priority
task. -/
theorem statStep_high (now : Nat) (s : Stats) (t : Task) :
    (statStep now s t).high = s.high + (if t.priority = "high" then 1 else 0) := by
  simp only [statStep]
  rw [(overdueIte_keeps _ _).2.2.2.2.1, bumpPriority_high, (bumpStatus_keeps _ _).2.1]

/-- One accumulation step bumps `medium` exactly on a `"medium"`-priority
task. -/
theorem statStep_medium (now : Nat) (s : Stats) (t : Task) :
    (statStep now s t).medium = s.medium + (if t.priority = "medium" then 1 else 0) := by
  simp only [statStep]
  rw [(overdueIte_keeps _ _).2.2.2.2.2.1, bumpPriority_medium, (bumpStatus_keeps _ _).2.2.1]

/-- One accumulation step bumps `low` exactly on a `"low"`-priority
task. -/
theorem statStep_low (now : Nat) (s : Stats) (t : Task) :
    (statStep now s t).low = s.low + (if t.priority = "low" then 1 else 0) := by
  simp only [statStep]
  rw [(overdueIte_keeps _ _).2.2.2.2.2.2.1, bumpPriority_low, (bumpStatus_keeps _ _).2.2.2.1]

/-- One accumulation step bumps `overdue` exactly on an overdue task. -/
theorem statStep_overdue (now : Nat) (s : Stats) (t : Task) :
    (statStep now s t).overdue = s.overdue + (if isOverdue t now then 1 else 0) := by
  simp only [statStep]
  split <;>
    simp [(bumpPriority_keeps _ _).2.2.2.2.2, (bumpStatus_keeps _ _).2.2.2.2.2, *]

/-- The `forEach` accumulation over the whole list: each counter gains
the number of tasks satisfying its predicate; `total` and
`completionRate` are untouched. -/
theorem statsFold (now : Nat) (ts : List Task) : ∀ init : Stats,
    (ts.foldl (statStep now) init).total = init.total ∧
    (ts.foldl (statStep now) init).completionRate = init.completionRate ∧
    (ts.foldl (statStep now) init).pending =
      init.pending + ts.countP (fun t => t.status = "pending") ∧
    (ts.foldl (statStep now) init).inProgress =
      init.inProgress + ts.countP (fun t => t.status = "in-progress") ∧
    (ts.foldl (statStep now) init).completed =
      init.completed + ts.countP (fun t => t.status = "completed") ∧
    (ts.foldl (statStep now) init).high =
      init.high + ts.countP (fun t => t.priority = "high") ∧
    (ts.foldl (statStep now) init).medium =
      init.medium + ts.countP (fun t => t.priority = "medium") ∧
    (ts.foldl (statStep now) init).low =
      init.low + ts.countP (fun t => t.priority = "low") ∧
    (ts.foldl (statStep now) init).overdue =
      init.overdue + ts.countP (fun t => isOverdue t now) := by
  induction ts with
  | nil => intro init; simp
  | cons t ts ih =>
    intro init
    obtain ⟨h1, h2, h3, h4, h5, h6, h7, h8, h9⟩ := ih (statStep now init t)
    rw [List.foldl_cons]
    refine ⟨?_, ?_, ?_, ?_, ?_, ?_, ?_, ?_, ?_⟩ <;>
      simp only [h1, h2, h3, h4, h5, h6, h7, h8, h9, statStep_total,
        statStep_completionRate, statStep_pending, statStep_inProgress,
        statStep_completed, statStep_high, statStep_medium, statStep_low,
        statStep_overdue, List.countP_cons, decide_eq_true_eq] <;>
      split_ifs <;> omega

/-- C9 (confirmed): `getStatistics` reports `total` equal to the number
of tasks; a count for each of the three statuses and each of the three
priorities (fields present even at zero); `overdue` equal to the number
of tasks with a set past due date and a status other than completed; and
`completionRate` equal to completed/total × 100 formatted to two decimal
places with a percent suffix when `total > 0` (e.g. `"50.00%"` for 2 of
4) and the zero-safe number 0 when `total = 0`. -/
theorem getStatistics_spec (m : TaskManager) (now : Nat) :
    (m.getStatistics now).total = m.tasks.length ∧
    (m.getStatistics now).pending = m.tasks.countP (fun t => t.status = "pending") ∧
    (m.getStatistics now).inProgress = m.tasks.countP (fun t => t.status = "in-progress") ∧
    (m.getStatistics now).completed = m.tasks.countP (fun t => t.status = "completed") ∧
    (m.getStatistics now).high = m.tasks.countP (fun t => t.priority = "high") ∧
    (m.getStatistics now).medium = m.tasks.countP (fun t => t.priority = "medium") ∧
    (m.getStatistics now).low = m.tasks.countP (fun t => t.priority = "low") ∧
    (m.getStatistics now).overdue = m.tasks.countP (fun t => isOverdue t now) ∧
    (m.getStatistics now).completionRate =
      (if 0 < m.tasks.length then
        CompletionRate.str
          (formatRate (m.tasks.countP (fun t => t.status = "completed")) m.tasks.length)
       else CompletionRate.num 0) ∧
    formatRate 2 4 = "50.00%" := by
  obtain ⟨h1, h2, h3, h4, h5, h6, h7, h8, h9⟩ :=
    statsFold now m.tasks
      { total := m.tasks.length
        pending := 0, inProgress := 0, completed := 0
        high := 0, medium := 0, low := 0
        completionRate := .num 0
        overdue := 0 }
  simp only [TaskManager.getStatistics]
  refine ⟨?_, ?_, ?_, ?_, ?_, ?_, ?_, ?_, ?_, by rfl⟩ <;>
    (simp [apply_ite, h1, h2, h3, h4, h5, h6, h7, h8, h9]
     try (rcases m.tasks with _ | ⟨a, l⟩ <;> simp))

/-- C2 (counterexample): `[...this.tasks]` copies the array, not the
task objects.  On a concrete one-task store the snapshot returned by
`getTasks` holds the very address (object reference) the store holds, so
overwriting the task record at that address — a mutation applied to a
record reachable from the returned result — changes the task record the
store itself reads. -/
theorem getTasks_shallow_copy :
    getTasks [sampleTask] [0] {} = [0] ∧
    readH (writeH [sampleTask] 0 { sampleTask with title := "mutated" }) 0 ≠
      readH [sampleTask] 0 := by
  constructor
  · rfl
  · decide

/-- C2 (amended): the sequence returned by `getTasks` is a fresh array —
reshaping it cannot affect the store's own array — but its elements are
the store's own task references (the records are shared, not copied), so
a mutation performed on a task record reached through the result is
visible through the store. -/
theorem getTasks_subset_of_store_refs (h : List Task) (refs : List Nat) (f : Filters)
    (a : Nat) (ha : a ∈ getTasks h refs f) : a ∈ refs := by
  unfold getTasks at ha
  split at ha <;> split at ha <;> split at ha <;> split at ha <;>
    (try simp only [List.mem_mergeSort, List.mem_filter] at ha) <;> tauto

/-- C2 (amended, witness): on a concrete one-task store the returned
address is one of the store's addresses. -/
theorem getTasks_subset_of_store_refs_witness :
    0 ∈ getTasks [sampleTask] [0] {} ∧ (0 : Nat) ∈ [0] :=
  ⟨by decide, getTasks_subset_of_store_refs [sampleTask] [0] {} 0 (by decide)⟩

/-- `find?` by id commutes with mapping an id-preserving function over
the list. -/
theorem find?_map_of_id (g : Task → Task) (hg : ∀ t, (g t).id = t.id) (j : Nat) :
    ∀ ts : List Task,
      (ts.map g).find? (fun t => t.id = j) = (ts.find? (fun t => t.id = j)).map g
  | [] => rfl
  | t :: ts => by
    by_cases h : t.id = j
    · rw [List.map_cons, List.find?_cons_of_pos _ (by simp [hg, h]),
        List.find?_cons_of_pos _ (by simp [h])]
      rfl
    · rw [List.map_cons, List.find?_cons_of_neg _ (by simp [hg, h]),
        List.find?_cons_of_neg _ (by simp [h]), find?_map_of_id g hg j ts]

/-- Mapping an id-preserving function leaves the list of ids
unchanged. -/
theorem map_id_of_preserve (g : Task → Task) (hg : ∀ t, (g t).id = t.id)
    (ts : List Task) : (ts.map g).map Task.id = ts.map Task.id := by
  rw [List.map_map]
  exact List.map_congr_left fun t _ => hg t

/-- When no task carries the id, one `markAsCompleted` step changes
nothing. -/
theorem markOne_eq_none_of_absent (now : Nat) {ts : List Task} {i : Nat}
    (h : ts.find? (fun t => t.id = i) = none) : markOne ts i now = none := by
  induction ts with
  | nil => rfl
  | cons t rest ih =>
    have ht : ¬ t.id = i := by
      simpa using List.find?_eq_none.mp h t (List.mem_cons_self t rest)
    have hrest : rest.find? (fun t => t.id = i) = none := by
      rw [List.find?_eq_none] at h ⊢
      exact fun x hx => h x (List.mem_cons_of_mem t hx)
    simp [markOne, ht, ih hrest]

/-- When the first task with the id is already completed, one
`markAsCompleted` step changes nothing. -/
theorem markOne_eq_none_of_completed (now : Nat) {ts : List Task} {i : Nat} {t : Task}
    (hfind : ts.find? (fun x => x.id = i) = some t) (hc : t.status = "completed") :
    markOne ts i now = none := by
  induction ts with
  | nil => simp at hfind
  | cons x rest ih =>
    by_cases hx : x.id = i
    · rw [List.find?_cons_of_pos rest (by simp [hx])] at hfind
      obtain rfl : x = t := by simpa using hfind
      simp [markOne, hx, hc]
    · rw [List.find?_cons_of_neg rest (by simp [hx])] at hfind
      simp [markOne, hx, ih hfind]

/-- When the first task with the id is not yet completed, one
`markAsCompleted` step completes exactly the tasks carrying that id
(under unique ids: that one task) and returns the completed task. -/
theorem markOne_eq_some (now : Nat) {ts : List Task} {i : Nat} {t : Task}
    (hnd : (ts.map Task.id).Nodup)
    (hfind : ts.find? (fun x => x.id = i) = some t) (hc : ¬ t.status = "completed") :
    markOne ts i now =
      some (completeTask t now,
        ts.map fun x => if x.id = i then completeTask x now else x) := by
  induction ts with
  | nil => simp at hfind
  | cons x rest ih =>
    rw [List.map_cons] at hnd
    obtain ⟨hxnotin, hndrest⟩ := List.nodup_cons.mp hnd
    by_cases hx : x.id = i
    · rw [List.find?_cons_of_pos rest (by simp [hx])] at hfind
      obtain rfl : x = t := by simpa using hfind
      have hrestmap :
          (rest.map fun y => if y.id = i then completeTask y now else y) = rest := by
        refine (List.map_congr_left fun y hy => ?_).trans (List.map_id rest)
        have hy' : ¬ y.id = i := by
          intro hyi
          exact hxnotin (by rw [hx, ← hyi]; exact List.mem_map_of_mem Task.id hy)
        simp [hy']
      simp [markOne, hx, hc, hrestmap]
    · rw [List.find?_cons_of_neg rest (by simp [hx])] at hfind
      simp [markOne, hx, ih hndrest hfind]

/-- The whole `markAsCompleted` loop, characterised: under unique task
ids and unique requested ids, the final list completes exactly the tasks
whose id was requested and whose status was not already `"completed"`,
and the returned list is, in request order, exactly the tasks that were
changed. -/
theorem markLoop_spec (now : Nat) : ∀ (ids : List Nat) (ts : List Task),
    (ts.map Task.id).Nodup → ids.Nodup →
    markLoop ts ids now =
      (ids.filterMap fun i =>
        match ts.find? (fun t => t.id = i) with
        | some t => if t.status = "completed" then none else some (completeTask t now)
        | none => none,
       ts.map fun t =>
        if t.id ∈ ids ∧ ¬ t.status = "completed" then completeTask t now else t)
  | [], ts, hts, hids => by simp [markLoop]
  | i :: rest, ts, hts, hids => by
    have hirest : i ∉ rest := (List.nodup_cons.mp hids).1
    have hrest : rest.Nodup := (List.nodup_cons.mp hids).2
    cases hfind : ts.find? (fun t => t.id = i) with
    | none =>
      have habs : ∀ t ∈ ts, ¬ t.id = i := fun t ht => by
        simpa using List.find?_eq_none.mp hfind t ht
      rw [markLoop, markOne_eq_none_of_absent now hfind,
        markLoop_spec now rest ts hts hrest]
      simp only [Prod.mk.injEq]
      constructor
      · simp [List.filterMap_cons, hfind]
      · exact List.map_congr_left fun t ht => by simp [List.mem_cons, habs t ht]
    | some t =>
      have hmem : t ∈ ts := List.mem_of_find?_eq_some hfind
      have htid : t.id = i := by simpa using List.find?_some hfind
      by_cases hc : t.status = "completed"
      · rw [markLoop, markOne_eq_none_of_completed now hfind hc,
          markLoop_spec now rest ts hts hrest]
        simp only [Prod.mk.injEq]
        constructor
        · simp [List.filterMap_cons, hfind, hc]
        · refine List.map_congr_left fun x hx => ?_
          by_cases hxi : x.id = i
          · have hxt : x = t :=
              List.inj_on_of_nodup_map hts hx hmem (by rw [hxi, htid])
            subst hxt
            simp [hc]
          · simp [List.mem_cons, hxi]
      · have hg : ∀ x : Task,
            ((fun x => if x.id = i then completeTask x now else x) x).id = x.id := by
          intro x
          by_cases hxi : x.id = i <;> simp [hxi, completeTask]
        have hmark := markOne_eq_some now hts hfind hc
        have hts' :
            ((ts.map fun x => if x.id = i then completeTask x now else x).map
              Task.id).Nodup := by
          rw [map_id_of_preserve _ hg]
          exact hts
        rw [markLoop, hmark]
        dsimp only
        rw [markLoop_spec now rest _ hts' hrest]
        simp only [Prod.mk.injEq]
        constructor
        · rw [List.filterMap_cons]
          simp only [hfind]
          rw [if_neg hc]
          congr 1
          refine List.filterMap_congr fun j hj => ?_
          have hji : ¬ j = i := fun hji => hirest (hji ▸ hj)
          rw [find?_map_of_id _ hg j ts]
          cases hfj : ts.find? (fun x => x.id = j) with
          | none => rfl
          | some tj =>
            have htj : tj.id = j := by simpa using List.find?_some hfj
            have hgj : (if tj.id = i then completeTask tj now else tj) = tj := by
              simp [htj, hji]
            dsimp only [Option.map]
            rw [hgj]
        · rw [List.map_map]
          refine List.map_congr_left fun x hx => ?_
          by_cases hxi : x.id = i
          · have hxt : x = t :=
              List.inj_on_of_nodup_map hts hx hmem (by rw [hxi, htid])
            subst hxt
            simp [Function.comp, hxi, completeTask, hc, List.mem_cons, hirest]
          · simp [Function.comp, hxi, List.mem_cons]

/-- C8 (confirmed): under unique task ids and unique requested ids,
`markAsCompleted(ids)` sets `status = "completed"` and refreshes
`updatedAt` exactly for the requested ids whose task exists and is not
already completed, leaves every other task and `nextId` unchanged, and
returns, in request order, exactly the tasks that were changed (empty
when none changed).  In particular, for `[id1, id2]` with id1's task
already completed and id2's pending, only id2's task transitions and the
returned list is exactly `[id2's new task]`. -/
theorem markAsCompleted_spec (m : TaskManager) (ids : List Nat) (now : Nat)
    (hts : (m.tasks.map Task.id).Nodup) (hids : ids.Nodup) :
    (m.markAsCompleted ids now).1 =
      (ids.filterMap fun i =>
        match m.tasks.find? (fun t => t.id = i) with
        | some t => if t.status = "completed" then none else some (completeTask t now)
        | none => none) ∧
    (m.markAsCompleted ids now).2.tasks =
      (m.tasks.map fun t =>
        if t.id ∈ ids ∧ ¬ t.status = "completed" then completeTask t now else t) ∧
    (m.markAsCompleted ids now).2.nextId = m.nextId := by
  have h := markLoop_spec now ids m.tasks hts hids
  refine ⟨?_, ?_, rfl⟩ <;> simp [TaskManager.markAsCompleted, h]

/-- C8 (confirmed, witness): the claim's own scenario on an explicit
store — id 5 already completed, id 1 pending, request `[5, 1]`: only
task 1 transitions and the returned list is exactly the new task 1. -/
theorem markAsCompleted_spec_witness :
    (TaskManager.markAsCompleted ⟨[doneTask, sampleTask], 6⟩ [5, 1] 9).1 =
      ([5, 1].filterMap fun i =>
        match [doneTask, sampleTask].find? (fun t => t.id = i) with
        | some t => if t.status = "completed" then none else some (completeTask t 9)
        | none => none) ∧
    (TaskManager.markAsCompleted ⟨[doneTask, sampleTask], 6⟩ [5, 1] 9).2.tasks =
      ([doneTask, sampleTask].map fun t =>
        if t.id ∈ [5, 1] ∧ ¬ t.status = "completed" then completeTask t 9 else t) ∧
    (TaskManager.markAsCompleted ⟨[doneTask, sampleTask], 6⟩ [5, 1] 9).2.nextId = 6 :=
  markAsCompleted_spec ⟨[doneTask, sampleTask], 6⟩ [5, 1] 9 (by decide) (by decide)

end TM
